import Mathlib

/-!
Verification of the FileTrace share-lifecycle and cascade-deletion core.

The JavaScript data layer stores its records in MongoDB collections; here each
collection is embedded as a `List` of records and each data-layer operation as
a pure function on those lists.  ObjectIds, tokens and timestamps are embedded
as `Nat`; MongoDB fields that may be absent (`undefined`) or `null` are
embedded as `Option`.
-/

/-- A record of the `userShares` collection, as built by `createUserShare` in
`server/data/userShares.js`: file/owner/recipient references, the optional
dual-expiration fields `expiresAt` and `maxAccessCount`, the consumption
counter `accessCount`, the `isActive` flag and timestamps. -/
structure UserShare where
  sid : Nat
  fileId : Nat
  ownerId : Nat
  recipientId : Nat
  expiresAt : Option Nat
  maxAccessCount : Option Nat
  accessCount : Nat
  isActive : Bool
  createdAt : Nat
  updatedAt : Nat
deriving DecidableEq, Repr

/-- `collection.findOne({ _id })` on the `userShares` collection. -/
def findShare (store : List UserShare) (shareId : Nat) : Option UserShare :=
  store.find? (fun s => s.sid == shareId)

/-- The body of `validateUserShare` (server/data/userShares.js) applied to the
record found: `if (!share.isActive) return false; if (share.expiresAt && now >=
share.expiresAt) return false; if (share.maxAccessCount !== undefined &&
share.accessCount >= share.maxAccessCount) return false; return true`. -/
def validateUserShareOn (s : UserShare) (now : Nat) : Bool :=
  if !s.isActive then false
  else if (match s.expiresAt with
           | some e => decide (e ≤ now)
           | none => false) then false
  else if (match s.maxAccessCount with
           | some m => decide (m ≤ s.accessCount)
           | none => false) then false
  else true

/-- `validateUserShare(shareId)` from server/data/userShares.js: a `findOne`
followed by the pure checks; `!share` yields `false`. -/
def validateUserShare (store : List UserShare) (shareId now : Nat) : Bool :=
  match findShare store shareId with
  | none => false
  | some s => validateUserShareOn s now

/-- `validateUserShare` as a state transformer on the collection: the function
body issues a single `findOne` read and no update, so the collection it returns
is the one it was given. -/
def validateUserShareSt (store : List UserShare) (shareId now : Nat) :
    List UserShare × Bool :=
  (store, validateUserShare store shareId now)

/-- C3: `validateUserShare` returns true iff the share exists, is active, its
expiry is absent or strictly in the future, and its max access count is absent
or strictly above the current access count; and as a state transformer it
leaves the collection unchanged, so repeated evaluation at the same
`(store, shareId, now)` always yields the same verdict. -/
theorem validateUserShare_spec (store : List UserShare) (shareId now : Nat) :
    (validateUserShareSt store shareId now).1 = store ∧
    ((validateUserShareSt store shareId now).2 = true ↔
      ∃ s, findShare store shareId = some s ∧ s.isActive = true ∧
        (s.expiresAt = none ∨ ∃ e, s.expiresAt = some e ∧ now < e) ∧
        (s.maxAccessCount = none ∨
          ∃ m, s.maxAccessCount = some m ∧ s.accessCount < m)) := by
  refine ⟨rfl, ?_⟩
  unfold validateUserShareSt validateUserShare
  cases hfind : findShare store shareId with
  | none => simp
  | some s =>
    simp only [hfind, Option.some.injEq]
    unfold validateUserShareOn
    constructor
    · intro hv
      by_cases ha : s.isActive
      · refine ⟨s, rfl, ha, ?_, ?_⟩
        · cases he : s.expiresAt with
          | none => exact Or.inl rfl
          | some e =>
            refine Or.inr ⟨e, rfl, ?_⟩
            by_cases hle : e ≤ now
            · simp [ha, he, hle] at hv
            · omega
        · cases hm : s.maxAccessCount with
          | none => exact Or.inl rfl
          | some m =>
            refine Or.inr ⟨m, rfl, ?_⟩
            by_cases hle : m ≤ s.accessCount
            · simp [ha, hm, hle] at hv
            · omega
      · simp [ha] at hv
    · rintro ⟨t, ht, ha, hexp, hcnt⟩
      cases ht
      rcases hexp with he | ⟨e, he, hlt⟩ <;>
        rcases hcnt with hm | ⟨m, hm, hltm⟩ <;>
          simp [ha, he, hm] <;> omega

/-- `incrementUserShareAccess(shareId)` from server/data/userShares.js: an
`updateOne` whose filter is only `{ _id }` and whose update is an unconditional
`$inc: { accessCount: 1 }, $set: { updatedAt: new Date() }` — it carries no
condition on `maxAccessCount` or on the current counter value. -/
def incrementUserShareAccess (store : List UserShare) (shareId now : Nat) :
    List UserShare :=
  store.map (fun s =>
    if s.sid == shareId
    then { s with accessCount := s.accessCount + 1, updatedAt := now }
    else s)

/-- Two concurrent consumers of the same user share, interleaved so that both
`validateUserShare` reads complete before either `incrementUserShareAccess`
write.  This interleaving is possible because the route (GET
/api/files/download/:fileId) awaits the validation read and the increment
write as two separate store operations. -/
def twoConcurrentConsumes (store : List UserShare) (shareId now : Nat) :
    List UserShare × Bool × Bool :=
  let v1 := validateUserShare store shareId now
  let v2 := validateUserShare store shareId now
  let st1 := if v1 then incrementUserShareAccess store shareId now else store
  let st2 := if v2 then incrementUserShareAccess st1 shareId now else st1
  (st2, v1, v2)

/-- A share permitting exactly one further consumption. -/
def raceShare : UserShare :=
  { sid := 1, fileId := 10, ownerId := 2, recipientId := 3,
    expiresAt := none, maxAccessCount := some 1, accessCount := 0,
    isActive := true, createdAt := 0, updatedAt := 0 }

/-- C1: the capacity check and the counter increment are a separate read
followed by a separate unconditional write, so under the read-read-write-write
interleaving two concurrent consumers of a share with `maxAccessCount = 1` are
both granted and the counter ends at 2, exceeding the limit. -/
theorem userShare_race_overconsumption :
    (twoConcurrentConsumes [raceShare] 1 5).2 = (true, true) ∧
    findShare (twoConcurrentConsumes [raceShare] 1 5).1 1 =
      some { raceShare with accessCount := 2, updatedAt := 5 } ∧
    raceShare.maxAccessCount = some 1 := by
  decide

/-- The consumption sequence of the user-share download path (GET
/api/files/download/:fileId in the share routes): `validateUserShare`; if
invalid, respond 403 with no write; if valid, `incrementUserShareAccess`.
Returns the collection and whether the consumption was granted. -/
def tryConsumeUserShare (store : List UserShare) (shareId now : Nat) :
    List UserShare × Bool :=
  if validateUserShare store shareId now
  then (incrementUserShareAccess store shareId now, true)
  else (store, false)

theorem findShare_increment (store : List UserShare) (shareId now : Nat) :
    findShare (incrementUserShareAccess store shareId now) shareId =
      (findShare store shareId).map
        (fun s => { s with accessCount := s.accessCount + 1, updatedAt := now }) := by
  induction store with
  | nil => rfl
  | cons a l ih =>
    unfold findShare incrementUserShareAccess at *
    by_cases h : a.sid == shareId
    · simp [List.find?, h]
    · simp only [List.map_cons, List.find?]
      rw [if_neg h]
      simp only [h, Bool.false_eq_true, if_false]
      exact ih

/-- C8: consuming a user share is a validity check (which covers time-based
expiry) before the increment: an invalid — expired, exhausted or inactive —
share is rejected with the collection left untouched, while a granted
consumption increments the counter by one and sets `updatedAt` to the current
time. -/
theorem tryConsume_spec (store : List UserShare) (shareId now : Nat)
    (s : UserShare) (hfind : findShare store shareId = some s) :
    (validateUserShareOn s now = false →
      tryConsumeUserShare store shareId now = (store, false)) ∧
    (validateUserShareOn s now = true →
      (tryConsumeUserShare store shareId now).2 = true ∧
      findShare (tryConsumeUserShare store shareId now).1 shareId =
        some { s with accessCount := s.accessCount + 1, updatedAt := now }) := by
  have hval : validateUserShare store shareId now = validateUserShareOn s now := by
    unfold validateUserShare
    rw [hfind]
  constructor
  · intro hv
    unfold tryConsumeUserShare
    rw [hval, hv]
    simp
  · intro hv
    unfold tryConsumeUserShare
    rw [hval, hv]
    refine ⟨rfl, ?_⟩
    show findShare (incrementUserShareAccess store shareId now) shareId = _
    rw [findShare_increment, hfind]
    rfl

/-- Witness for C8 at `raceShare`: the consumption is granted and the counter
moves from 0 to 1 with `updatedAt` set. -/
theorem tryConsume_spec_witness :
    (tryConsumeUserShare [raceShare] 1 5).2 = true ∧
    findShare (tryConsumeUserShare [raceShare] 1 5).1 1 =
      some { raceShare with accessCount := 1, updatedAt := 5 } :=
  (tryConsume_spec [raceShare] 1 5 raceShare (by decide)).2 (by decide)

/-- The input to `createUserShare` (server/data/userShares.js) after the route
resolved the recipient: both expiration dimensions optional. -/
structure CreateUserShareData where
  fileId : Nat
  ownerId : Nat
  recipientId : Nat
  expirationMinutes : Option Nat
  maxAccessCount : Option Nat
deriving DecidableEq, Repr

/-- The checks of `createUserShareSchema`: integer minutes within 10..525960,
a positive max count, at least one expiration method present, and owner and
recipient distinct. -/
def createUserShareValid (d : CreateUserShareData) : Bool :=
  (match d.expirationMinutes with
   | some m => decide (10 ≤ m) && decide (m ≤ 525960)
   | none => true) &&
  (match d.maxAccessCount with
   | some c => decide (1 ≤ c)
   | none => true) &&
  (d.expirationMinutes.isSome || d.maxAccessCount.isSome) &&
  !(d.ownerId == d.recipientId)

/-- The filter of the `findOne` in `createUserShare`: an active share of the
same (file, recipient) pair. -/
def activeFor (fileId recipientId : Nat) (s : UserShare) : Bool :=
  s.fileId == fileId && s.recipientId == recipientId && s.isActive

/-- The `updateOne({ _id: existing._id }, { $set: { isActive: false,
updatedAt: new Date() } })` issued when an existing active share is found. -/
def deactivateById (store : List UserShare) (sid now : Nat) : List UserShare :=
  store.map (fun s =>
    if s.sid == sid then { s with isActive := false, updatedAt := now } else s)

/-- `createUserShare` from server/data/userShares.js: validate; `findOne` an
existing active share for the (file, recipient) pair and deactivate it if
found; then insert the new share with `accessCount = 0` and `isActive = true`
and `expiresAt = now + expirationMinutes` (minutes embedded as 60000 ms).
Returns `none` when validation rejects the input. -/
def createUserShare (store : List UserShare) (d : CreateUserShareData)
    (now newId : Nat) : Option (List UserShare × UserShare) :=
  if createUserShareValid d then
    let store1 :=
      match store.find? (activeFor d.fileId d.recipientId) with
      | some e => deactivateById store e.sid now
      | none => store
    let sh : UserShare :=
      { sid := newId, fileId := d.fileId, ownerId := d.ownerId,
        recipientId := d.recipientId,
        expiresAt := d.expirationMinutes.map (fun m => now + 60000 * m),
        maxAccessCount := d.maxAccessCount, accessCount := 0,
        isActive := true, createdAt := now, updatedAt := now }
    some (store1 ++ [sh], sh)
  else none

theorem countP_deactivate_found (f r now : Nat) :
    ∀ (store : List UserShare) (e : UserShare),
      store.find? (activeFor f r) = some e →
      store.countP (activeFor f r) ≤ 1 →
      (deactivateById store e.sid now).countP (activeFor f r) = 0 := by
  intro store
  induction store with
  | nil => intro e he _; simp [List.find?] at he
  | cons a l ih =>
    intro e he hc
    by_cases hpa : activeFor f r a
    · have hea : e = a := by
        rw [List.find?_cons_of_pos _ hpa] at he
        exact (Option.some.injEq _ _).mp he.symm
      subst hea
      have hcl : l.countP (activeFor f r) = 0 := by
        rw [List.countP_cons_of_pos _ _ hpa] at hc
        omega
      unfold deactivateById
      simp only [List.map_cons, beq_self_eq_true, if_true, reduceIte]
      rw [List.countP_cons_of_neg]
      · rw [List.countP_eq_zero]
        intro x hx
        rw [List.mem_map] at hx
        obtain ⟨y, hy, hxy⟩ := hx
        have hny : ¬ activeFor f r y := by
          rw [List.countP_eq_zero] at hcl
          exact hcl y hy
        by_cases hid : y.sid == e.sid
        · subst hxy
          simp only [hid, if_true, reduceIte]
          unfold activeFor
          simp
        · subst hxy
          simp only [hid, Bool.false_eq_true, if_false]
          exact hny
      · unfold activeFor
        simp
    · have hel : l.find? (activeFor f r) = some e := by
        rwa [List.find?_cons_of_neg _ hpa] at he
      have hcl : l.countP (activeFor f r) ≤ 1 := by
        rw [List.countP_cons_of_neg _ _ hpa] at hc
        exact hc
      have h0 := ih e hel hcl
      unfold deactivateById at h0 ⊢
      simp only [List.map_cons]
      rw [List.countP_cons_of_neg, h0]
      by_cases hid : a.sid == e.sid
      · simp only [hid, if_true, reduceIte]
        unfold activeFor
        simp
      · simp only [hid, Bool.false_eq_true, if_false]
        exact hpa

/-- C4: if the collection holds at most one active UserShare for the
(file, recipient) pair — the invariant the operation maintains — then after
`createUserShare` deactivates any prior active record and inserts the new one,
exactly one UserShare for that pair is active. -/
theorem createUserShare_unique_active (store : List UserShare)
    (d : CreateUserShareData) (now newId : Nat)
    (store1 : List UserShare) (sh : UserShare)
    (hcount : store.countP (activeFor d.fileId d.recipientId) ≤ 1)
    (h : createUserShare store d now newId = some (store1, sh)) :
    store1.countP (activeFor d.fileId d.recipientId) = 1 := by
  unfold createUserShare at h
  by_cases hv : createUserShareValid d
  · rw [if_pos hv] at h
    simp only [Option.some.injEq, Prod.mk.injEq] at h
    obtain ⟨hstore, hsh⟩ := h
    have hnew : activeFor d.fileId d.recipientId
        { sid := newId, fileId := d.fileId, ownerId := d.ownerId,
          recipientId := d.recipientId,
          expiresAt := d.expirationMinutes.map (fun m => now + 60000 * m),
          maxAccessCount := d.maxAccessCount, accessCount := 0,
          isActive := true, createdAt := now, updatedAt := now } = true := by
      unfold activeFor
      simp
    cases hfind : store.find? (activeFor d.fileId d.recipientId) with
    | none =>
      have h0 : store.countP (activeFor d.fileId d.recipientId) = 0 := by
        rw [List.countP_eq_zero]
        intro x hx
        exact List.find?_eq_none.mp hfind x hx
      rw [← hstore, hfind]
      rw [List.countP_append, h0, List.countP_cons_of_pos _ _ hnew]
      simp
    | some e =>
      have h0 := countP_deactivate_found d.fileId d.recipientId now store e
        hfind hcount
      rw [← hstore, hfind]
      rw [List.countP_append, h0, List.countP_cons_of_pos _ _ hnew]
      simp
  · rw [if_neg hv] at h
    exact absurd h (Option.noConfusion)

/-- The existing active share and the creation request used as the C4
witness inputs. -/
def priorShare : UserShare :=
  { sid := 4, fileId := 10, ownerId := 2, recipientId := 3,
    expiresAt := some 1000, maxAccessCount := none, accessCount := 0,
    isActive := true, createdAt := 0, updatedAt := 0 }

def newShareData : CreateUserShareData :=
  { fileId := 10, ownerId := 2, recipientId := 3,
    expirationMinutes := none, maxAccessCount := some 5 }

/-- The record inserted by the C4 witness run. -/
def createdShareRec : UserShare :=
  { sid := 9, fileId := 10, ownerId := 2, recipientId := 3,
    expiresAt := none, maxAccessCount := some 5, accessCount := 0,
    isActive := true, createdAt := 7, updatedAt := 7 }

/-- Witness for C4: creating a second share for the (10, 3) pair over an
existing active one leaves exactly one active UserShare for that pair. -/
theorem createUserShare_unique_active_witness :
    (deactivateById [priorShare] 4 7 ++ [createdShareRec]).countP
      (activeFor 10 3) = 1 :=
  createUserShare_unique_active [priorShare] newShareData 7 9
    (deactivateById [priorShare] 4 7 ++ [createdShareRec]) createdShareRec
    (by decide) (by decide)

/-- A record of the `files` collection (server/data/files.js), restricted to
the fields the deletion and access-stat operations touch. -/
structure FileRec where
  fid : Nat
  ownerId : Nat
  accessCount : Nat
  lastAccessedAt : Nat
  updatedAt : Nat
deriving DecidableEq, Repr

/-- A record of the `shareLinks` collection as the share routes read it:
unique token, file and owner references, the dual-expiration fields, the
consumption counter and the active flag. -/
structure LinkShare where
  sid : Nat
  token : Nat
  fileId : Nat
  ownerId : Nat
  expiresAt : Option Nat
  maxAccessCount : Option Nat
  accessCount : Nat
  isActive : Bool
  updatedAt : Nat
deriving DecidableEq, Repr

/-- A record of the `auditLogs` collection (server/data/auditLogs.js):
nullable file reference, action tag, optional actor reference and display
name.  `userId = none` covers both an absent field and the `null` written by
anonymization, which MongoDB query operators treat alike here. -/
structure AuditLog where
  aid : Nat
  fileId : Option Nat
  action : String
  userId : Option Nat
  username : Option String
deriving DecidableEq, Repr

/-- A record of the `users` collection, restricted to its identity. -/
structure UserRec where
  uid : Nat
deriving DecidableEq, Repr

/-- The five MongoDB collections the cascade orchestrators touch. -/
structure Db where
  files : List FileRec
  shareLinks : List LinkShare
  userShares : List UserShare
  auditLogs : List AuditLog
  users : List UserRec
deriving DecidableEq, Repr

/-- The four sub-deletions of `deleteFile` (server/data/files.js) in source
order: `deleteOne` on files, then `deleteMany` on shareLinks, userShares and
auditLogs by `fileId`.  None of them opens a session or a transaction. -/
def deleteFileSteps (fid : Nat) : List (Db → Db) :=
  [ fun db => { db with files := db.files.filter (fun f => !(f.fid == fid)) },
    fun db => { db with
      shareLinks := db.shareLinks.filter (fun l => !(l.fileId == fid)) },
    fun db => { db with
      userShares := db.userShares.filter (fun s => !(s.fileId == fid)) },
    fun db => { db with
      auditLogs := db.auditLogs.filter (fun e => !(e.fileId == some fid)) } ]

/-- Applies the first `k` of a list of store operations — the state a
sequential, non-transactional run leaves behind when the operation after the
`k`-th throws. -/
def applyPrefix (steps : List (Db → Db)) (k : Nat) (db : Db) : Db :=
  (steps.take k).foldl (fun d f => f d) db

/-- `deleteFile(fileId)` run either to completion (`failAfter = none`) or
interrupted by an error after `k` completed sub-deletions (`failAfter = some
k`).  Because the four operations run back to back with no transaction, an
interrupted run keeps the writes already made. -/
def deleteFileRun (db : Db) (fid : Nat) (failAfter : Option Nat) : Db :=
  match failAfter with
  | none => applyPrefix (deleteFileSteps fid) 4 db
  | some k => applyPrefix (deleteFileSteps fid) k db

/-- The file ids owned by a user — STEP 1 of `deleteUserAccount`
(server/data/users.js), computed once before any deletion. -/
def ownedFileIds (db : Db) (u : Nat) : List Nat :=
  (db.files.filter (fun f => f.ownerId == u)).map (fun f => f.fid)

/-- Whether an audit entry references one of the given files: the meaning of
the `fileId: { $in: userFileIds }` filter (a `null`/absent `fileId` matches no
id in the list). -/
def refersOwnedFile (owned : List Nat) (e : AuditLog) : Bool :=
  match e.fileId with
  | some fid => owned.contains fid
  | none => false

/-- STEP 6 of `deleteUserAccount` applied to one entry: the `updateMany`
filter is `userId = u` and `fileId: { $nin: userFileIds }` (which a
`null`/absent `fileId` satisfies), and the update sets `userId` to null and
`username` to the sentinel. -/
def anonymizeEntry (u : Nat) (owned : List Nat) (e : AuditLog) : AuditLog :=
  if e.userId == some u && !(refersOwnedFile owned e)
  then { e with userId := none, username := some "[Deleted User]" }
  else e

/-- The combined effect of STEPs 2..8 of `deleteUserAccount`
(server/data/users.js): delete shareLinks and userShares where the user is
owner, keep userShares where the user is only recipient, delete audit logs on
the user's own files, anonymize audit logs where the user acted on files not
their own, delete the user's files and the user record.  `owned` is computed
from the initial state, as in STEP 1. -/
def cascadeUserAccount (db : Db) (u : Nat) : Db :=
  let owned := ownedFileIds db u
  { files := db.files.filter (fun f => !(f.ownerId == u)),
    shareLinks := db.shareLinks.filter (fun l => !(l.ownerId == u)),
    userShares := db.userShares.filter (fun s => !(s.ownerId == u)),
    auditLogs := (db.auditLogs.filter
      (fun e => !(refersOwnedFile owned e))).map (anonymizeEntry u owned),
    users := db.users.filter (fun x => !(x.uid == u)) }

/-- `deleteUserAccount` runs its steps inside `session.withTransaction` and
passes the session to every sub-operation, so an error anywhere (`failed =
true`) aborts the transaction and leaves the store as it was; a clean run
commits the whole cascade. -/
def deleteUserAccountRun (db : Db) (u : Nat) (failed : Bool) : Db × Bool :=
  if failed then (db, false) else (cascadeUserAccount db u, true)

/-- C2 as stated: both cascade entry points would be all-or-nothing — an
interrupted `deleteFile` run leaves either no effect or the full effect, and
an aborted `deleteUserAccount` leaves no effect. -/
def cascadeAtomicClaim : Prop :=
  (∀ (db : Db) (fid k : Nat),
    deleteFileRun db fid (some k) = db ∨
    deleteFileRun db fid (some k) = deleteFileRun db fid none) ∧
  (∀ (db : Db) (u : Nat), (deleteUserAccountRun db u true).1 = db)

/-- A store with one file and one share link referencing it. -/
def exFile : FileRec :=
  { fid := 1, ownerId := 2, accessCount := 0, lastAccessedAt := 0,
    updatedAt := 0 }

def exLink : LinkShare :=
  { sid := 6, token := 7, fileId := 1, ownerId := 2, expiresAt := none,
    maxAccessCount := some 3, accessCount := 0, isActive := true,
    updatedAt := 0 }

def exDb : Db :=
  { files := [exFile], shareLinks := [exLink], userShares := [],
    auditLogs := [], users := [⟨2⟩] }

/-- C2 counterexample: `deleteFile` is not transactional — interrupting the
concrete run on `exDb` after its first sub-deletion leaves the file record
gone while the share link referencing it is still present, a partial effect
equal neither to the initial state nor to the completed cascade. -/
theorem deleteFile_not_atomic : ¬ cascadeAtomicClaim := by
  intro h
  have h1 := h.1 exDb 1 1
  rcases h1 with h1 | h1 <;> exact absurd h1 (by decide)

/-- C2 amended: account deletion is transactional — an aborted run has no
effect and a clean run commits the whole cascade — while file deletion runs
its four sub-deletions sequentially without a transaction: an error after the
first sub-deletion leaves the file record removed with every share and audit
record still in place, and only a completed run removes all records
referencing the file. -/
theorem cascade_atomicity_contrast :
    (∀ (db : Db) (u : Nat),
      (deleteUserAccountRun db u true).1 = db ∧
      (deleteUserAccountRun db u false).1 = cascadeUserAccount db u) ∧
    (∀ (db : Db) (fid : Nat),
      deleteFileRun db fid (some 1) =
        { db with files := db.files.filter (fun f => !(f.fid == fid)) }) ∧
    (∀ (db : Db) (fid : Nat),
      (∀ f ∈ (deleteFileRun db fid none).files, f.fid ≠ fid) ∧
      (∀ l ∈ (deleteFileRun db fid none).shareLinks, l.fileId ≠ fid) ∧
      (∀ s ∈ (deleteFileRun db fid none).userShares, s.fileId ≠ fid) ∧
      (∀ e ∈ (deleteFileRun db fid none).auditLogs, e.fileId ≠ some fid)) := by
  refine ⟨fun db u => ⟨rfl, rfl⟩, fun db fid => rfl, fun db fid => ?_⟩
  refine ⟨?_, ?_, ?_, ?_⟩ <;>
    · intro x hx
      simp only [deleteFileRun, applyPrefix, deleteFileSteps, List.take,
        List.foldl] at hx
      rw [List.mem_filter] at hx
      simpa using hx.2

/-- A share link referencing a different file, surviving the cascade. -/
def exLink2 : LinkShare :=
  { sid := 8, token := 11, fileId := 2, ownerId := 2, expiresAt := none,
    maxAccessCount := none, accessCount := 0, isActive := true,
    updatedAt := 0 }

def exDb2 : Db :=
  { files := [exFile], shareLinks := [exLink, exLink2], userShares := [],
    auditLogs := [], users := [⟨2⟩] }

/-- Witness for the amended C2: the link left behind by the completed
`deleteFile` run on `exDb2` does not reference the deleted file. -/
theorem cascade_atomicity_contrast_witness : exLink2.fileId ≠ 1 :=
  (cascade_atomicity_contrast.2.2 exDb2 1).2.1 exLink2 (by decide)

theorem anonymizeEntry_aid (u : Nat) (owned : List Nat) (e : AuditLog) :
    (anonymizeEntry u owned e).aid = e.aid := by
  unfold anonymizeEntry
  by_cases h : e.userId == some u && !(refersOwnedFile owned e) <;> simp [h]

/-- C5: in the state `deleteUserAccount` commits, (a) no entry with the id of
an entry that referenced one of the user's own files survives — such entries
are deleted outright, never anonymized; (b) every entry in which the user was
the actor and whose file is not one of their own survives with the actor
reference cleared and the sentinel display name; (c) every other entry
survives unchanged; and (d) every surviving entry is one of the original
entries not referencing the user's files, altered at most by that
anonymization. -/
theorem auditAnonymization_selective (db : Db) (u : Nat)
    (hnd : (db.auditLogs.map (fun e => e.aid)).Nodup) :
    (∀ e ∈ db.auditLogs, refersOwnedFile (ownedFileIds db u) e = true →
      ∀ x ∈ (deleteUserAccountRun db u false).1.auditLogs, x.aid ≠ e.aid) ∧
    (∀ e ∈ db.auditLogs, e.userId = some u →
      refersOwnedFile (ownedFileIds db u) e = false →
      { e with userId := none, username := some "[Deleted User]" } ∈
        (deleteUserAccountRun db u false).1.auditLogs) ∧
    (∀ e ∈ db.auditLogs, e.userId ≠ some u →
      refersOwnedFile (ownedFileIds db u) e = false →
      e ∈ (deleteUserAccountRun db u false).1.auditLogs) ∧
    (∀ x ∈ (deleteUserAccountRun db u false).1.auditLogs,
      ∃ e ∈ db.auditLogs, refersOwnedFile (ownedFileIds db u) e = false ∧
        x = anonymizeEntry u (ownedFileIds db u) e) := by
  have hres : (deleteUserAccountRun db u false).1.auditLogs =
      (db.auditLogs.filter
        (fun e => !(refersOwnedFile (ownedFileIds db u) e))).map
        (anonymizeEntry u (ownedFileIds db u)) := rfl
  refine ⟨?_, ?_, ?_, ?_⟩
  · intro e he hown x hx hxe
    rw [hres, List.mem_map] at hx
    obtain ⟨y, hy, hxy⟩ := hx
    rw [List.mem_filter] at hy
    have hyid : y.aid = e.aid := by
      rw [← hxe, ← hxy, anonymizeEntry_aid]
    have hye : y = e :=
      List.inj_on_of_nodup_map hnd hy.1 he hyid
    rw [hye] at hy
    simp [hown] at hy
  · intro e he hu hown
    rw [hres, List.mem_map]
    refine ⟨e, ?_, ?_⟩
    · rw [List.mem_filter]
      exact ⟨he, by simp [hown]⟩
    · unfold anonymizeEntry
      rw [hown, hu]
      simp
  · intro e he hu hown
    rw [hres, List.mem_map]
    refine ⟨e, ?_, ?_⟩
    · rw [List.mem_filter]
      exact ⟨he, by simp [hown]⟩
    · unfold anonymizeEntry
      have : (e.userId == some u) = false := by
        simpa using hu
      rw [this]
      simp
  · intro x hx
    rw [hres, List.mem_map] at hx
    obtain ⟨y, hy, hxy⟩ := hx
    rw [List.mem_filter] at hy
    exact ⟨y, hy.1, by simpa using hy.2, hxy.symm⟩

/-- C9: the committed state of `deleteUserAccount` keeps every UserShare the
user does not own — in particular every share where the user is only the
recipient — as the identical record, and a share is removed only when the
user owns it. -/
theorem recipientShares_preserved (db : Db) (u : Nat) :
    (∀ s ∈ db.userShares, s.recipientId = u → s.ownerId ≠ u →
      s ∈ (deleteUserAccountRun db u false).1.userShares) ∧
    (∀ s ∈ db.userShares,
      s ∉ (deleteUserAccountRun db u false).1.userShares → s.ownerId = u) := by
  have hres : (deleteUserAccountRun db u false).1.userShares =
      db.userShares.filter (fun s => !(s.ownerId == u)) := rfl
  constructor
  · intro s hs _ hso
    rw [hres, List.mem_filter]
    exact ⟨hs, by simpa using hso⟩
  · intro s hs hnot
    by_contra hso
    refine hnot ?_
    rw [hres, List.mem_filter]
    exact ⟨hs, by simpa using hso⟩

/-- A database exercising every audit-anonymization case: user 2 owns file 1,
user 3 owns file 2; entry 1 sits on user 2's own file, entry 2 records user 2
acting on user 3's file, entry 3 records user 3 on their own file; user 2 owns
one share and receives another. -/
def fileOfUser3 : FileRec :=
  { fid := 2, ownerId := 3, accessCount := 0, lastAccessedAt := 0,
    updatedAt := 0 }

def ownFileLog : AuditLog :=
  { aid := 1, fileId := some 1, action := "DOWNLOAD", userId := some 3,
    username := some "carol" }

def guestActorLog : AuditLog :=
  { aid := 2, fileId := some 2, action := "DOWNLOAD", userId := some 2,
    username := some "bob" }

def otherLog : AuditLog :=
  { aid := 3, fileId := some 2, action := "UPLOAD", userId := some 3,
    username := some "carol" }

def shareOwnedByUser2 : UserShare :=
  { sid := 21, fileId := 1, ownerId := 2, recipientId := 3,
    expiresAt := none, maxAccessCount := some 4, accessCount := 1,
    isActive := true, createdAt := 0, updatedAt := 0 }

def shareReceivedByUser2 : UserShare :=
  { sid := 22, fileId := 2, ownerId := 3, recipientId := 2,
    expiresAt := none, maxAccessCount := some 4, accessCount := 1,
    isActive := true, createdAt := 0, updatedAt := 0 }

def accountDb : Db :=
  { files := [exFile, fileOfUser3],
    shareLinks := [exLink],
    userShares := [shareOwnedByUser2, shareReceivedByUser2],
    auditLogs := [ownFileLog, guestActorLog, otherLog],
    users := [⟨2⟩, ⟨3⟩] }

/-- The guest-actor entry after anonymization. -/
def anonymizedGuestLog : AuditLog :=
  { guestActorLog with userId := none, username := some "[Deleted User]" }

/-- Witness for C5 on `accountDb`: deleting user 2 leaves the guest-actor
entry anonymized to the sentinel. -/
theorem auditAnonymization_selective_witness :
    anonymizedGuestLog ∈ (deleteUserAccountRun accountDb 2 false).1.auditLogs :=
  (auditAnonymization_selective accountDb 2 (by decide)).2.1 guestActorLog
    (by decide) (by decide) (by decide)

/-- Witness for C9 on `accountDb`: the share where user 2 is only the
recipient survives account deletion as the identical record. -/
theorem recipientShares_preserved_witness :
    shareReceivedByUser2 ∈ (deleteUserAccountRun accountDb 2 false).1.userShares :=
  (recipientShares_preserved accountDb 2).1 shareReceivedByUser2
    (by decide) (by decide) (by decide)

/-- The state the public share-token routes read and write: the collections
they touch plus a counter of `console.error` reports, the operator-visible
error channel. -/
structure LinkDb where
  files : List FileRec
  shareLinks : List LinkShare
  auditLogs : List AuditLog
  consoleErrors : Nat
deriving DecidableEq, Repr

/-- `getShareLinkByToken(token)`: the `findOne` on the unique token index. -/
def findLink (links : List LinkShare) (token : Nat) : Option LinkShare :=
  links.find? (fun l => l.token == token)

/-- Modelled from the spec: `server/data/shareLinks.js` is not among the
sources, so `validateShareLink` is taken from §4.1 — a share is active iff its
active flag is set, its expiry is absent or strictly in the future, and its
maximum count is absent or strictly above the consumption counter; the
evaluation is a pure read. -/
def validateShareLinkOn (l : LinkShare) (now : Nat) : Bool :=
  l.isActive &&
  (match l.expiresAt with
   | some e => decide (now < e)
   | none => true) &&
  (match l.maxAccessCount with
   | some m => decide (l.accessCount < m)
   | none => true)

def validateShareLink (links : List LinkShare) (token now : Nat) : Bool :=
  match findLink links token with
  | none => false
  | some l => validateShareLinkOn l now

/-- Modelled from the spec: `incrementShareAccess(token)` from the missing
`shareLinks.js`, per §4.2's side effect — on success it updates the
consumption counter and `updatedAt` of the share with that token. -/
def incrementShareAccess (links : List LinkShare) (token now : Nat) :
    List LinkShare :=
  links.map (fun l =>
    if l.token == token
    then { l with accessCount := l.accessCount + 1, updatedAt := now }
    else l)

/-- `updateAccessStats(fileId)` from server/data/files.js: `$inc` the file's
access counter and `$set` its timestamps. -/
def updateAccessStats (files : List FileRec) (fid now : Nat) : List FileRec :=
  files.map (fun f =>
    if f.fid == fid
    then { f with accessCount := f.accessCount + 1, lastAccessedAt := now,
                  updatedAt := now }
    else f)

/-- The audit entry the token routes write on an invalid token, with the
share's file reference when the token resolves and `null` otherwise. -/
def expiredAttemptLog (aid : Nat) (fid : Option Nat) : AuditLog :=
  { aid := aid, fileId := fid, action := "EXPIRED_LINK_ATTEMPT",
    userId := none, username := none }

/-- The audit entry the download route writes on success. -/
def downloadLog (aid fid : Nat) : AuditLog :=
  { aid := aid, fileId := some fid, action := "DOWNLOAD", userId := none,
    username := none }

/-- GET /api/share/:token (share routes): validate the link; on an invalid
token append an EXPIRED_LINK_ATTEMPT entry and answer 403; otherwise read the
link and its file and answer 200 with their data (404 when the file row is
gone).  The route performs no write to the share or file collections. -/
def shareViewRoute (db : LinkDb) (token now newLogId : Nat) : LinkDb × Nat :=
  if validateShareLink db.shareLinks token now then
    match findLink db.shareLinks token with
    | none => (db, 500)
    | some l =>
      if (db.files.find? (fun f => f.fid == l.fileId)).isSome
      then (db, 200)
      else (db, 404)
  else
    ({ db with auditLogs := db.auditLogs ++
        [expiredAttemptLog newLogId ((findLink db.shareLinks token).map
          (fun l => l.fileId))] }, 403)

/-- POST /api/share/:token/download (share routes): validate; on an invalid
token log the attempt and answer 403; otherwise increment the share counter,
update the file's access stats and then await the DOWNLOAD audit append before
answering 200.  `auditFails` injects a failure of that awaited append: the
route's catch block reports it to console.error and answers 500, with the
increments already applied and not undone. -/
def shareDownloadRoute (db : LinkDb) (token now newLogId : Nat)
    (auditFails : Bool) : LinkDb × Nat :=
  if validateShareLink db.shareLinks token now then
    match findLink db.shareLinks token with
    | none => (db, 500)
    | some l =>
      if (db.files.find? (fun f => f.fid == l.fileId)).isSome then
        let db1 := { db with
          shareLinks := incrementShareAccess db.shareLinks token now,
          files := updateAccessStats db.files l.fileId now }
        if auditFails
        then ({ db1 with consoleErrors := db1.consoleErrors + 1 }, 500)
        else ({ db1 with auditLogs :=
                  db1.auditLogs ++ [downloadLog newLogId l.fileId] }, 200)
      else (db, 404)
  else
    if auditFails
    then ({ db with consoleErrors := db.consoleErrors + 1 }, 500)
    else ({ db with auditLogs := db.auditLogs ++
            [expiredAttemptLog newLogId ((findLink db.shareLinks token).map
              (fun l => l.fileId))] }, 403)

/-- C10: viewing a share via GET /api/share/:token never writes to the share
or file collections — in particular every share's access counter after any
view, successful or not, equals the counter before it. -/
theorem shareView_no_mutation (db : LinkDb) (token now newLogId : Nat) :
    (shareViewRoute db token now newLogId).1.shareLinks = db.shareLinks ∧
    (shareViewRoute db token now newLogId).1.files = db.files := by
  unfold shareViewRoute
  by_cases hv : validateShareLink db.shareLinks token now
  · rw [if_pos hv]
    cases hf : findLink db.shareLinks token with
    | none => exact ⟨rfl, rfl⟩
    | some l =>
      by_cases hfile : (db.files.find? (fun f => f.fid == l.fileId)).isSome <;>
        simp [hfile]
  · rw [if_neg hv]
    exact ⟨rfl, rfl⟩

/-- The auditLogger middleware (server/middleware/auditLogger.js): the append
runs as `createAuditLog(...).catch(error => console.error(...))`, detached
from the response — a failure only writes to console.error. -/
def middlewareAudit (db : LinkDb) (e : AuditLog) (fails : Bool) : LinkDb :=
  if fails then { db with consoleErrors := db.consoleErrors + 1 }
  else { db with auditLogs := db.auditLogs ++ [e] }

/-- A route whose response `resp` was already computed when the middleware's
detached audit append runs on `res.send`. -/
def routeWithMiddlewareAudit (db : LinkDb) (resp : Nat) (e : AuditLog)
    (fails : Bool) : LinkDb × Nat :=
  (middlewareAudit db e fails, resp)

/-- C6 as stated for the download route: a failed audit append would never
change the outcome the caller sees. -/
def auditFireAndForgetClaim : Prop :=
  ∀ (db : LinkDb) (token now newLogId : Nat),
    (shareDownloadRoute db token now newLogId true).2 =
      (shareDownloadRoute db token now newLogId false).2

/-- The store the token-route runs start from: one file and one valid link. -/
def exLinkDb : LinkDb :=
  { files := [exFile], shareLinks := [exLink], auditLogs := [],
    consoleErrors := 0 }

/-- C6 counterexample: on `exLinkDb` the download with a healthy audit append
answers 200, but the same download with a failing append answers 500 — the
awaited append failure fails the primary operation for the caller. -/
theorem auditFailure_fails_download : ¬ auditFireAndForgetClaim := by
  intro h
  exact absurd (h exLinkDb 7 0 99) (by decide)

/-- C6 amended: audit appends issued by the auditLogger middleware are
fire-and-forget — failure or success, the response is unchanged, and a failure
is reported to console.error without touching the collections; the public
download route instead awaits its audit append before responding, so a failing
append turns the response into a 500 even though the consumption increment is
already applied and not undone, the failure again reported to console.error. -/
theorem auditFailure_surfaced_not_blocking :
    (∀ (db : LinkDb) (e : AuditLog) (resp : Nat),
      (routeWithMiddlewareAudit db resp e true).2 = resp ∧
      (routeWithMiddlewareAudit db resp e false).2 = resp ∧
      (routeWithMiddlewareAudit db resp e true).1.consoleErrors =
        db.consoleErrors + 1 ∧
      (routeWithMiddlewareAudit db resp e true).1.shareLinks =
        db.shareLinks) ∧
    (∀ (db : LinkDb) (token now newLogId : Nat) (l : LinkShare),
      validateShareLink db.shareLinks token now = true →
      findLink db.shareLinks token = some l →
      (db.files.find? (fun f => f.fid == l.fileId)).isSome = true →
      (shareDownloadRoute db token now newLogId true).2 = 500 ∧
      (shareDownloadRoute db token now newLogId true).1.shareLinks =
        incrementShareAccess db.shareLinks token now ∧
      (shareDownloadRoute db token now newLogId true).1.consoleErrors =
        db.consoleErrors + 1) := by
  constructor
  · intro db e resp
    exact ⟨rfl, rfl, rfl, rfl⟩
  · intro db token now newLogId l hv hf hfile
    unfold shareDownloadRoute
    rw [hv, hf]
    simp [hfile]

/-- Witness for the amended C6 on `exLinkDb`: the failing-append download
answers 500 while the share counter is incremented and the failure is
reported. -/
theorem auditFailure_surfaced_not_blocking_witness :
    (shareDownloadRoute exLinkDb 7 0 99 true).2 = 500 ∧
    (shareDownloadRoute exLinkDb 7 0 99 true).1.shareLinks =
      incrementShareAccess exLinkDb.shareLinks 7 0 ∧
    (shareDownloadRoute exLinkDb 7 0 99 true).1.consoleErrors =
      exLinkDb.consoleErrors + 1 :=
  auditFailure_surfaced_not_blocking.2 exLinkDb 7 0 99 exLink
    (by decide) (by decide) (by decide)

/-- The file lookup of POST /api/share/create: a missing file and a file owned
by someone else both answer 404 "File not found". -/
def shareCreateFileCheck (files : List FileRec) (fileId requester : Nat) :
    Nat :=
  match files.find? (fun f => f.fid == fileId) with
  | none => 404
  | some f => if f.ownerId == requester then 200 else 404

/-- The file lookup of DELETE /api/files/:fileId: same 404-for-both shape. -/
def deleteFileRouteCheck (files : List FileRec) (fileId requester : Nat) :
    Nat :=
  match files.find? (fun f => f.fid == fileId) with
  | none => 404
  | some f => if f.ownerId == requester then 200 else 404

/-- The file lookup of GET /api/share/file/:fileId/active-shares: a missing
file answers 404, but a file owned by someone else answers 403
"Unauthorized: You do not own this file". -/
def activeSharesFileCheck (files : List FileRec) (fileId requester : Nat) :
    Nat :=
  match files.find? (fun f => f.fid == fileId) with
  | none => 404
  | some f => if f.ownerId == requester then 200 else 403

/-- C7 as stated: every cited file lookup would answer the same 404 both when
the file does not exist and when it exists but belongs to another user. -/
def sameNotFoundResponseClaim : Prop :=
  ∀ (files : List FileRec) (fileId requester : Nat),
    (files.find? (fun f => f.fid == fileId) = none ∨
      ∃ f, files.find? (fun f2 => f2.fid == fileId) = some f ∧
        f.ownerId ≠ requester) →
    shareCreateFileCheck files fileId requester = 404 ∧
    deleteFileRouteCheck files fileId requester = 404 ∧
    activeSharesFileCheck files fileId requester = 404

/-- C7 counterexample: for requester 3 and the store holding only `exFile`
(file 1 owned by user 2), the active-shares lookup answers 403, not 404 — the
not-owned cause is distinguishable from not-found there. -/
theorem notOwned_distinguishable : ¬ sameNotFoundResponseClaim := by
  intro h
  have hcase := h [exFile] 1 3 (Or.inr ⟨exFile, by decide, by decide⟩)
  exact absurd hcase.2.2 (by decide)

/-- C7 amended: the share-creation and file-deletion lookups answer the same
404 for a missing file and for a file owned by another user, while the
active-shares lookup answers 404 for a missing file but 403 for a not-owned
one. -/
theorem notFound_notOwned_responses (files : List FileRec)
    (fileId requester : Nat) :
    (files.find? (fun f => f.fid == fileId) = none →
      shareCreateFileCheck files fileId requester = 404 ∧
      deleteFileRouteCheck files fileId requester = 404 ∧
      activeSharesFileCheck files fileId requester = 404) ∧
    (∀ f, files.find? (fun f2 => f2.fid == fileId) = some f →
      f.ownerId ≠ requester →
      shareCreateFileCheck files fileId requester = 404 ∧
      deleteFileRouteCheck files fileId requester = 404 ∧
      activeSharesFileCheck files fileId requester = 403) := by
  constructor
  · intro hnone
    unfold shareCreateFileCheck deleteFileRouteCheck activeSharesFileCheck
    rw [hnone]
    exact ⟨rfl, rfl, rfl⟩
  · intro f hf hne
    have hbeq : (f.ownerId == requester) = false := by
      simpa using hne
    unfold shareCreateFileCheck deleteFileRouteCheck activeSharesFileCheck
    rw [hf]
    simp [hbeq]

/-- Witness for the amended C7: with only `exFile` in store and requester 3,
the three lookups answer 404, 404 and 403. -/
theorem notFound_notOwned_responses_witness :
    shareCreateFileCheck [exFile] 1 3 = 404 ∧
    deleteFileRouteCheck [exFile] 1 3 = 404 ∧
    activeSharesFileCheck [exFile] 1 3 = 403 :=
  (notFound_notOwned_responses [exFile] 1 3).2 exFile (by decide) (by decide)
